import Mathlib

/-!
Shallow embedding of the GFAS preprocessing scripts
(`bin/preprocess_gfas_data.py`, the single-grid path, and
`combine_gfas_data.py`, the two-half combining path).

Modelling conventions:
* `np.float32` cell values are modelled as exact rationals (`ℚ`); all the
  comparisons the scripts perform (`==`, `!=`, `<`, `>`) are exact, so the
  rational model reproduces them faithfully on representable inputs.
* A 3-D `(time, lat, lon)` array is a `Grid3`: explicit extents plus a total
  valuation function on indices, matching a numpy array's index space.
* Raw time values are modelled as ideal integers `ℤ`; the `np.int32` cast on
  the output time variable is modelled by an explicit wrap `toInt32`.
-/

namespace GFAS

/-- The declared fill sentinel `np.float32(-1.0e-31)`, modelled as the exact
rational `-10⁻³¹`.  The scripts only ever compare it for equality with cell
values and rely on it being a fixed nonzero value of magnitude below `1`;
the rational stand-in has exactly those properties. -/
def missValue : ℚ := -(1 / 10 ^ 31)

/-- Index of the first occurrence of the maximal entry of a list of counts,
mirroring `np.argmax` (which returns the first index attaining the maximum);
`0` on the empty list. -/
def argmaxIdx : List Nat → Nat
  | [] => 0
  | a :: rest =>
    let j := argmaxIdx rest
    if a < rest.getD j 0 then j + 1 else 0

/-- The distinct values of `l` in ascending order, mirroring the first
component of `np.unique(data, return_counts=True)`. -/
def uniqueSorted (l : List ℚ) : List ℚ :=
  (l.dedup).insertionSort (· ≤ ·)

/-- `simple_mode(data)`: `np.unique` yields the sorted distinct values with
their occurrence counts; `np.argmax` picks the first (hence smallest) value
attaining the maximal count. -/
def simple_mode (l : List ℚ) : ℚ :=
  let u := uniqueSorted l
  let counts := u.map fun v => l.count v
  u.getD (argmaxIdx counts) 0

/-- A 3-D `(time, lat, lon)` data array: explicit extents and a total
valuation on indices (mirroring a numpy array of shape `(T, Y, X)`). -/
@[ext]
structure Grid3 where
  T : Nat
  Y : Nat
  X : Nat
  val : Nat → Nat → Nat → ℚ

/-- All cell values of a grid, flattened in C order (time, lat, lon); the
collection `simple_mode` is run over. -/
def cellsList (g : Grid3) : List ℚ :=
  (List.range g.T).flatMap fun t =>
    (List.range g.Y).flatMap fun y =>
      (List.range g.X).map fun x => g.val t y x

/-- The latitude-axis reversal `data[:, ::-1, :]`. -/
def latReversed (g : Grid3) : Grid3 :=
  { g with val := fun t y x => g.val t (g.Y - 1 - y) x }

/-- `data[data == simple_mode(data)] = fill`: replace every cell equal to the
array's dominant value with `fill`. -/
def replaceModeWith (fill : ℚ) (g : Grid3) : Grid3 :=
  let m := simple_mode (cellsList g)
  { g with val := fun t y x => if g.val t y x = m then fill else g.val t y x }

/-- The four height-related variable codes recognized by the single-grid
script (`preprocess_gfas_data.py`, line 168). -/
def heightCodes : List String := ["mami", "injh", "apb", "apt"]

/-- Data processing of one variable in the single-grid script: reverse the
latitude axis, then replace cells equal to the dominant value with the fill
sentinel (for the four height codes) or `0.0` (otherwise). -/
def process_variable_single (code : String) (raw : Grid3) : Grid3 :=
  replaceModeWith (if code ∈ heightCodes then missValue else 0) (latReversed raw)

/-- Per-half data processing of one variable in the combining script
(`combine_gfas_data.py`, lines 116-124): reverse the latitude axis, then
replace cells equal to that half's dominant value with the fill sentinel
(only for code `mami`) or `0.0` (any other code). -/
def process_half_combine (code : String) (raw : Grid3) : Grid3 :=
  replaceModeWith (if code = "mami" then missValue else 0) (latReversed raw)

/-- `np.concatenate((a, b))` along the time axis. -/
def timeConcat (a b : Grid3) : Grid3 :=
  { T := a.T + b.T, Y := a.Y, X := a.X,
    val := fun t y x => if t < a.T then a.val t y x else b.val (t - a.T) y x }

/-- Data processing of one variable in the combining script: both halves are
processed independently (each with its own dominant value), then concatenated
along the time axis. -/
def process_variable_combine (code : String) (raw1 raw2 : Grid3) : Grid3 :=
  timeConcat (process_half_combine code raw1) (process_half_combine code raw2)

/-- One cell of the single-grid emission-height pass
(`preprocess_gfas_data.py`, lines 184-197).  First pass: cells whose `cofire`
value is exactly `0.0` are set to the fill sentinel.  Second pass: cells that
are not the sentinel, have nonzero `cofire`, and lie strictly between `-1.0`
and `1.0` are set to `0.0`. -/
def correctHeightCellSingle (h c : ℚ) : ℚ :=
  let h1 := if c = 0 then missValue else h
  if h1 ≠ missValue ∧ c ≠ 0 ∧ h1 < 1 ∧ -1 < h1 then 0 else h1

/-- One cell of the combining-script emission-height pass
(`combine_gfas_data.py`, lines 137-141).  First pass as in the single-grid
script; second pass condition is `(heights != miss) & (cofire > -1.0) &
(heights < 1.0)` — a one-sided height bound and a `cofire > -1.0` test
instead of `cofire != 0.0`. -/
def correctHeightCellCombine (h c : ℚ) : ℚ :=
  let h1 := if c = 0 then missValue else h
  if h1 ≠ missValue ∧ -1 < c ∧ h1 < 1 then 0 else h1

/-- Apply a cell function to corresponding cells of two grids (all the numpy
operations in the emission-height passes are elementwise). -/
def zipCells (f : ℚ → ℚ → ℚ) (a b : Grid3) : Grid3 :=
  { a with val := fun t y x => f (a.val t y x) (b.val t y x) }

/-- The output grid at the point the emission-height pass runs: the four
height variables and the carbon-monoxide combustion flux, all already
written by the variable transformer. -/
@[ext]
structure OutGrid where
  mami : Grid3
  injh : Grid3
  apb : Grid3
  apt : Grid3
  cofire : Grid3

/-- `process_emission_heights` of the single-grid script: each of the four
height variables is corrected cellwise against `cofire`. -/
def process_emission_heights_single (g : OutGrid) : OutGrid :=
  { g with
    mami := zipCells correctHeightCellSingle g.mami g.cofire
    injh := zipCells correctHeightCellSingle g.injh g.cofire
    apb := zipCells correctHeightCellSingle g.apb g.cofire
    apt := zipCells correctHeightCellSingle g.apt g.cofire }

/-- `process_emission_heights` of the combining script: only `mami` is
corrected (lines 134-143); `injh`, `apb`, `apt` are left untouched. -/
def process_emission_heights_combine (g : OutGrid) : OutGrid :=
  { g with mami := zipCells correctHeightCellCombine g.mami g.cofire }

/-- 1-D latitude processing (`process_lat_dimension`): the raw latitude
array reversed (`latitude[::-1]`). -/
def process_lat (raw : List ℚ) : List ℚ := raw.reverse

/-- 1-D longitude processing (`process_lon_dimension`): copied unchanged. -/
def process_lon (raw : List ℚ) : List ℚ := raw

/-- The fixed epoch offset, in hours, subtracted from every raw time value. -/
def timeOffset : ℤ := 613608

/-- Wrap an ideal integer to the `np.int32` range (the output `time`
variable is created with dtype `np.int32`). -/
def toInt32 (v : ℤ) : ℤ := (v + 2 ^ 31) % 2 ^ 32 - 2 ^ 31

/-- Single-grid time processing (`process_time_dimension`): subtract the
epoch offset from every raw value and store as `np.int32`. -/
def process_time_single (t : List ℤ) : List ℤ :=
  t.map fun v => toInt32 (v - timeOffset)

/-- Combining-script time processing: offset-correct each half, then
concatenate first half before second half, without re-sorting. -/
def process_time_combine (t1 t2 : List ℤ) : List ℤ :=
  process_time_single t1 ++ process_time_single t2

/-- One record of the variable specification: code, display name, unit. -/
structure VarMeta where
  code : String
  name : String
  unit : String

/-- The warning the single-grid script writes for a specified variable code
absent from the raw dataset (the f-string juxtaposition in the source drops
the space before "spec"). -/
def warnAbsentSingle (code : String) : String :=
  "WARNING: Variable " ++ code ++
    " specified in variablespec, but not found in input dataset.\n"

/-- The progress line the single-grid script writes before processing a
present variable. -/
def infoProcessingSingle (code : String) : String :=
  "INFO: Processing " ++ code ++ "...\n"

/-- Processing of one specified variable by the single-grid script, as the
pair (created output variable, messages written to the error stream).  An
absent code yields no output variable and exactly the warning line; a
present code yields the processed variable plus the progress and completion
lines. -/
def process_variable_run_single (vars : List (String × Grid3)) (m : VarMeta) :
    Option (String × Grid3) × List String :=
  match vars.lookup m.code with
  | none => (none, [warnAbsentSingle m.code])
  | some raw =>
    (some (m.code, process_variable_single m.code raw),
     [infoProcessingSingle m.code, "done\n"])

/-- The single-grid script's loop over the variable specification, collecting
created output variables and error-stream messages in order. -/
def process_all_single (vars : List (String × Grid3)) :
    List VarMeta → List (String × Grid3) × List String
  | [] => ([], [])
  | m :: rest =>
    let r := process_variable_run_single vars m
    let rs := process_all_single vars rest
    (r.1.toList ++ rs.1, r.2 ++ rs.2)

/-- The progress line the combining script writes (before the presence
check, unlike the single-grid script). -/
def infoProcessingCombine (code : String) : String :=
  "INFO: Processing " ++ code ++ "\n"

/-- The combining script's warning for an absent variable code (again with
the f-string juxtaposition dropping a space). -/
def warnAbsentCombine (code : String) : String :=
  "WARNING: Variable " ++ code ++
    " specified in variablespec, but not found in input datasets."

/-- Processing of one specified variable by the combining script.  The
progress line is written first; then, if the code is absent from the first
half, the warning is written and no variable is created.  A code present in
the first half but absent from the second raises an uncaught KeyError
(modelled as `Except.error`). -/
def process_variable_run_combine (vars1 vars2 : List (String × Grid3))
    (m : VarMeta) : Except String (Option (String × Grid3) × List String) :=
  match vars1.lookup m.code with
  | none => .ok (none, [infoProcessingCombine m.code, warnAbsentCombine m.code])
  | some raw1 =>
    match vars2.lookup m.code with
    | none => .error ("KeyError: " ++ m.code)
    | some raw2 =>
      .ok (some (m.code, process_variable_combine m.code raw1 raw2),
           [infoProcessingCombine m.code])

/-- The configuration facts `main` of the single-grid script probes, in the
order it probes them. -/
structure RunConfig where
  rawIsFile : Bool
  outWritable : Bool
  specIsFile : Bool
  specOpenOk : Bool
  rawOpenOk : Bool

/-- Externally observable outcome of a run: exit status, whether a
diagnostic was reported, whether a file now sits at the output path
(assuming none existed beforehand), and whether processing completed. -/
structure RunOutcome where
  exitCode : Nat
  reported : Bool
  outFileCreated : Bool
  completed : Bool

/-- Configuration-error handling of the single-grid script.  Argument
validation order: `file_path` on the raw path (existence check, argparse
exits with status 2 on failure), then `potential_file_path` on the output
path — which probes writability by opening the path with mode "w+",
creating an empty file there on success — then `file_path` on the variable
spec path.  `main` then opens the spec, the raw dataset, and the output
dataset, exiting with status 1 on the first failure. -/
def mainSingleRun (cfg : RunConfig) : RunOutcome :=
  if ¬ cfg.rawIsFile then ⟨2, true, false, false⟩
  else if ¬ cfg.outWritable then ⟨2, true, false, false⟩
  else if ¬ cfg.specIsFile then ⟨2, true, true, false⟩
  else if ¬ cfg.specOpenOk then ⟨1, true, true, false⟩
  else if ¬ cfg.rawOpenOk then ⟨1, true, true, false⟩
  else ⟨0, false, true, true⟩

/-- A raw input dataset as the single-grid script reads it. -/
structure RawInput where
  times : List ℤ
  lat : List ℚ
  lon : List ℚ
  vars : List (String × Grid3)

/-- The processed output of the single-grid script up to the end of the
variable loop (the trailing emission-height pass is modelled separately by
`process_emission_heights_single`). -/
structure ProcessedSingle where
  timeVar : List ℤ
  latVar : List ℚ
  lonVar : List ℚ
  dataVars : List (String × Grid3)
  msgs : List String

/-- The processing phase of `main` in the single-grid script: the output
title's date is derived from the raw time coordinate at fixed index 5
(`input_dataset.variables["time"][5]`) before any dimension or data
variable is written; with fewer than 6 time steps this raises an uncaught
IndexError (modelled as `Except.error`). -/
def mainSingleProcess (raw : RawInput) (spec : List VarMeta) :
    Except String ProcessedSingle :=
  match raw.times[5]? with
  | none => .error "IndexError: time index 5 out of bounds"
  | some _ =>
    let vs := process_all_single raw.vars spec
    .ok { timeVar := process_time_single raw.times
          latVar := process_lat raw.lat
          lonVar := process_lon raw.lon
          dataVars := vs.1
          msgs := vs.2 }
/-- A concrete 1×1×1 grid whose single cell holds `5`. -/
def gridFive : Grid3 := ⟨1, 1, 1, fun _ _ _ => 5⟩

/-- A concrete output grid: every height cell holds `7`, every combustion
flux cell holds `0`. -/
def outGridZeroFlux : OutGrid :=
  ⟨⟨1, 1, 1, fun _ _ _ => 7⟩, ⟨1, 1, 1, fun _ _ _ => 7⟩,
   ⟨1, 1, 1, fun _ _ _ => 7⟩, ⟨1, 1, 1, fun _ _ _ => 7⟩,
   ⟨1, 1, 1, fun _ _ _ => 0⟩⟩

/-- A concrete output grid: every height cell holds `0.4`, every combustion
flux cell holds `-2.5` (nonzero, but not greater than `-1`). -/
def outGridNegFlux : OutGrid :=
  ⟨⟨1, 1, 1, fun _ _ _ => 2 / 5⟩, ⟨1, 1, 1, fun _ _ _ => 2 / 5⟩,
   ⟨1, 1, 1, fun _ _ _ => 2 / 5⟩, ⟨1, 1, 1, fun _ _ _ => 2 / 5⟩,
   ⟨1, 1, 1, fun _ _ _ => -5 / 2⟩⟩

/-- A configuration where every probe succeeds except opening the variable
spec for reading in `main`. -/
def cfgSpecUnreadable : RunConfig := ⟨true, true, true, false, true⟩

/-- A raw input with only three time steps. -/
def rawShort : RawInput := ⟨[0, 1, 2], [], [], []⟩

/-- A variable record for the fire radiative power flux. -/
def metaFire : VarMeta := ⟨"frpfire", "Fire radiative power", "W m**-2"⟩

theorem argmaxIdx_cons (a : Nat) (rest : List Nat) :
    argmaxIdx (a :: rest) =
      if a < rest.getD (argmaxIdx rest) 0 then argmaxIdx rest + 1 else 0 := rfl

theorem argmaxIdx_lt_length : ∀ (l : List Nat), l ≠ [] → argmaxIdx l < l.length
  | [], h => absurd rfl h
  | a :: rest, _ => by
    rw [argmaxIdx_cons]
    by_cases hlt : a < rest.getD (argmaxIdx rest) 0
    · rw [if_pos hlt]
      have hrne : rest ≠ [] := by
        intro hnil
        subst hnil
        exact absurd hlt (by simp)
      exact Nat.succ_lt_succ (argmaxIdx_lt_length rest hrne)
    · rw [if_neg hlt]
      exact Nat.succ_pos _

theorem argmaxIdx_spec_le : ∀ (l : List Nat) (i : Nat), i < l.length →
    l.getD i 0 ≤ l.getD (argmaxIdx l) 0
  | [], i, h => by simp at h
  | a :: rest, i, h => by
    rw [argmaxIdx_cons]
    by_cases hlt : a < rest.getD (argmaxIdx rest) 0
    · rw [if_pos hlt]
      cases i with
      | zero =>
        rw [List.getD_cons_zero, List.getD_cons_succ]
        exact Nat.le_of_lt hlt
      | succ i =>
        rw [List.getD_cons_succ, List.getD_cons_succ]
        exact argmaxIdx_spec_le rest i (Nat.lt_of_succ_lt_succ h)
    · rw [if_neg hlt]
      cases i with
      | zero => exact le_refl _
      | succ i =>
        rw [List.getD_cons_succ, List.getD_cons_zero]
        exact le_trans (argmaxIdx_spec_le rest i (Nat.lt_of_succ_lt_succ h))
          (Nat.le_of_not_lt hlt)

theorem argmaxIdx_spec_first : ∀ (l : List Nat) (i : Nat), i < argmaxIdx l →
    l.getD i 0 < l.getD (argmaxIdx l) 0
  | [], i, h => by simp [argmaxIdx] at h
  | a :: rest, i, h => by
    rw [argmaxIdx_cons] at h ⊢
    by_cases hlt : a < rest.getD (argmaxIdx rest) 0
    · rw [if_pos hlt] at h ⊢
      cases i with
      | zero =>
        rw [List.getD_cons_zero, List.getD_cons_succ]
        exact hlt
      | succ i =>
        rw [List.getD_cons_succ, List.getD_cons_succ]
        exact argmaxIdx_spec_first rest i (Nat.lt_of_succ_lt_succ h)
    · rw [if_neg hlt] at h
      exact absurd h (Nat.not_lt_zero i)

theorem uniqueSorted_sorted (l : List ℚ) : (uniqueSorted l).Sorted (· ≤ ·) :=
  List.sorted_insertionSort _ _

theorem uniqueSorted_perm (l : List ℚ) : List.Perm (uniqueSorted l) l.dedup :=
  List.perm_insertionSort _ _

theorem mem_uniqueSorted {l : List ℚ} {x : ℚ} : x ∈ uniqueSorted l ↔ x ∈ l := by
  rw [uniqueSorted, List.mem_insertionSort, List.mem_dedup]

theorem uniqueSorted_ne_nil {l : List ℚ} (h : l ≠ []) : uniqueSorted l ≠ [] := by
  intro hnil
  rcases List.exists_mem_of_ne_nil l h with ⟨x, hx⟩
  have : x ∈ uniqueSorted l := mem_uniqueSorted.mpr hx
  rw [hnil] at this
  simp at this

theorem missValue_neg : missValue < 0 := by norm_num [missValue]

theorem missValue_ne_zero : missValue ≠ 0 := ne_of_lt missValue_neg

theorem missValue_gt_negOne : -1 < missValue := by norm_num [missValue]

theorem missValue_lt_one : missValue < 1 :=
  lt_trans missValue_neg one_pos

theorem toInt32_eq_self {v : ℤ} (hlo : -(2 ^ 31) ≤ v) (hhi : v < 2 ^ 31) :
    toInt32 v = v := by
  unfold toInt32
  have h0 : (0:ℤ) ≤ v + 2 ^ 31 := by linarith
  have h1 : v + 2 ^ 31 < 2 ^ 32 := by linarith
  rw [Int.emod_eq_of_lt h0 h1]
  ring


theorem counts_getD (l : List ℚ) (i : Nat) (hi : i < (uniqueSorted l).length) :
    ((uniqueSorted l).map fun v => l.count v).getD i 0
      = l.count ((uniqueSorted l)[i]) := by
  rw [List.getD_eq_getElem _ 0 (by simpa using hi), List.getElem_map]

/-- Claim C9: `simple_mode` is a (deterministic, total) function on
non-empty lists of rationals returning a value of maximal occurrence count;
among values tied for the maximal count it returns the numerically smallest
(`np.unique` lists the distinct values in ascending order and `np.argmax`
returns the first index attaining the maximum). -/
theorem simple_mode_is_mode (l : List ℚ) (h : l ≠ []) :
    simple_mode l ∈ l ∧
    (∀ x ∈ l, l.count x ≤ l.count (simple_mode l)) ∧
    (∀ x ∈ l, l.count x = l.count (simple_mode l) → simple_mode l ≤ x) := by
  have hu : uniqueSorted l ≠ [] := uniqueSorted_ne_nil h
  have hcne : ((uniqueSorted l).map fun v => l.count v) ≠ [] := by
    simpa using hu
  have hk : argmaxIdx ((uniqueSorted l).map fun v => l.count v)
      < ((uniqueSorted l).map fun v => l.count v).length :=
    argmaxIdx_lt_length _ hcne
  have hk' : argmaxIdx ((uniqueSorted l).map fun v => l.count v)
      < (uniqueSorted l).length := by simpa using hk
  have hmode : simple_mode l
      = (uniqueSorted l)[argmaxIdx ((uniqueSorted l).map fun v => l.count v)] := by
    unfold simple_mode
    exact List.getD_eq_getElem _ 0 hk'
  refine ⟨?_, ?_, ?_⟩
  · rw [hmode]
    exact mem_uniqueSorted.mp (List.getElem_mem hk')
  · intro x hx
    obtain ⟨i, hi, hix⟩ := List.getElem_of_mem (mem_uniqueSorted.mpr hx)
    have hle := argmaxIdx_spec_le ((uniqueSorted l).map fun v => l.count v) i
      (by simpa using hi)
    rw [counts_getD l i hi, counts_getD l _ hk', hix, ← hmode] at hle
    exact hle
  · intro x hx hcount
    obtain ⟨i, hi, hix⟩ := List.getElem_of_mem (mem_uniqueSorted.mpr hx)
    have hki : argmaxIdx ((uniqueSorted l).map fun v => l.count v) ≤ i := by
      by_contra hlt
      have hstrict := argmaxIdx_spec_first
        ((uniqueSorted l).map fun v => l.count v) i (Nat.lt_of_not_le hlt)
      rw [counts_getD l i hi, counts_getD l _ hk', hix, ← hmode] at hstrict
      rw [hcount] at hstrict
      exact lt_irrefl _ hstrict
    have hsorted := uniqueSorted_sorted l
    have := hsorted.rel_get_of_le
      (a := ⟨argmaxIdx ((uniqueSorted l).map fun v => l.count v), hk'⟩)
      (b := ⟨i, hi⟩) hki
    rw [List.get_eq_getElem, List.get_eq_getElem] at this
    simp only [← hmode, hix] at this
    exact this

theorem correctHeightCellSingle_zero_flux (h : ℚ) :
    correctHeightCellSingle h 0 = missValue := by
  simp [correctHeightCellSingle]

theorem correctHeightCellCombine_zero_flux (h : ℚ) :
    correctHeightCellCombine h 0 = missValue := by
  simp [correctHeightCellCombine]

theorem correctHeightCellSingle_of_ne (h c : ℚ) (hc : c ≠ 0) :
    correctHeightCellSingle h c
      = if h ≠ missValue ∧ h < 1 ∧ -1 < h then 0 else h := by
  show (if (if c = 0 then missValue else h) ≠ missValue ∧ c ≠ 0 ∧
          (if c = 0 then missValue else h) < 1 ∧
          -1 < (if c = 0 then missValue else h)
        then 0 else (if c = 0 then missValue else h)) = _
  rw [if_neg hc]
  by_cases hcond : h ≠ missValue ∧ h < 1 ∧ -1 < h
  · rw [if_pos ⟨hcond.1, hc, hcond.2.1, hcond.2.2⟩, if_pos hcond]
  · rw [if_neg fun hfull => hcond ⟨hfull.1, hfull.2.2.1, hfull.2.2.2⟩,
      if_neg hcond]

theorem correctHeightCellCombine_of_ne (h c : ℚ) (hc : c ≠ 0) :
    correctHeightCellCombine h c
      = if h ≠ missValue ∧ -1 < c ∧ h < 1 then 0 else h := by
  show (if (if c = 0 then missValue else h) ≠ missValue ∧ -1 < c ∧
          (if c = 0 then missValue else h) < 1
        then 0 else (if c = 0 then missValue else h)) = _
  rw [if_neg hc]

theorem correctHeightCellSingle_idem (h c : ℚ) :
    correctHeightCellSingle (correctHeightCellSingle h c) c
      = correctHeightCellSingle h c := by
  by_cases hc : c = 0
  · subst hc
    rw [correctHeightCellSingle_zero_flux, correctHeightCellSingle_zero_flux]
  · rw [correctHeightCellSingle_of_ne h c hc]
    by_cases hcond : h ≠ missValue ∧ h < 1 ∧ -1 < h
    · rw [if_pos hcond, correctHeightCellSingle_of_ne 0 c hc,
        if_pos ⟨Ne.symm missValue_ne_zero, by norm_num, by norm_num⟩]
    · rw [if_neg hcond, correctHeightCellSingle_of_ne h c hc, if_neg hcond]

theorem correctHeightCellCombine_idem (h c : ℚ) :
    correctHeightCellCombine (correctHeightCellCombine h c) c
      = correctHeightCellCombine h c := by
  by_cases hc : c = 0
  · subst hc
    rw [correctHeightCellCombine_zero_flux, correctHeightCellCombine_zero_flux]
  · rw [correctHeightCellCombine_of_ne h c hc]
    by_cases hcond : h ≠ missValue ∧ -1 < c ∧ h < 1
    · rw [if_pos hcond, correctHeightCellCombine_of_ne 0 c hc,
        if_pos ⟨Ne.symm missValue_ne_zero, hcond.2.1, by norm_num⟩]
    · rw [if_neg hcond, correctHeightCellCombine_of_ne h c hc, if_neg hcond]

theorem zipCells_idem (f : ℚ → ℚ → ℚ) (hf : ∀ h c, f (f h c) c = f h c)
    (a b : Grid3) : zipCells f (zipCells f a b) b = zipCells f a b := by
  unfold zipCells
  exact Grid3.ext rfl rfl rfl
    (funext fun t => funext fun y => funext fun x => hf _ _)

theorem process_all_single_append (v : List (String × Grid3))
    (s1 s2 : List VarMeta) :
    process_all_single v (s1 ++ s2)
      = ((process_all_single v s1).1 ++ (process_all_single v s2).1,
         (process_all_single v s1).2 ++ (process_all_single v s2).2) := by
  induction s1 with
  | nil => simp [process_all_single]
  | cons a s1 ih => simp [process_all_single, ih]

theorem twoFifths_ne_missValue : (2 / 5 : ℚ) ≠ missValue := by
  norm_num [missValue]

/-- Claim C1 (amended): after the latitude-axis reversal, every cell whose
value equals the array's dominant value is replaced — in the single-grid
path with the fill sentinel for the four height codes (`mami`, `injh`,
`apb`, `apt`) and with `0.0` for every other code; in the combining path
(per half) with the fill sentinel only for `mami`, and with `0.0` for every
other code, including `injh`, `apb` and `apt`. -/
theorem variable_fill_replacement (code : String) (raw : Grid3) (t y x : Nat)
    (hmode : (latReversed raw).val t y x
      = simple_mode (cellsList (latReversed raw))) :
    (process_variable_single code raw).val t y x
      = (if code ∈ heightCodes then missValue else 0) ∧
    (process_half_combine code raw).val t y x
      = (if code = "mami" then missValue else 0) := by
  constructor
  · have h1 : (process_variable_single code raw).val t y x
        = if (latReversed raw).val t y x
            = simple_mode (cellsList (latReversed raw))
          then (if code ∈ heightCodes then missValue else 0)
          else (latReversed raw).val t y x := rfl
    rw [h1, if_pos hmode]
  · have h1 : (process_half_combine code raw).val t y x
        = if (latReversed raw).val t y x
            = simple_mode (cellsList (latReversed raw))
          then (if code = "mami" then missValue else 0)
          else (latReversed raw).val t y x := rfl
    rw [h1, if_pos hmode]

/-- Witness for claim C1 at a concrete grid and the height code `injh`. -/
theorem variable_fill_replacement_witness :
    ((latReversed gridFive).val 0 0 0
      = simple_mode (cellsList (latReversed gridFive))) ∧
    (process_variable_single "injh" gridFive).val 0 0 0
      = (if "injh" ∈ heightCodes then missValue else 0) :=
  ⟨by decide, (variable_fill_replacement "injh" gridFive 0 0 0 (by decide)).1⟩

/-- Counterexample for claim C1 as stated: in the combining path the height
code `injh` has its dominant-value cells replaced with `0.0`, not with the
fill sentinel. -/
theorem variable_fill_replacement_counterexample :
    (process_variable_combine "injh" gridFive gridFive).val 0 0 0 = 0 ∧
    (0 : ℚ) ≠ missValue :=
  ⟨by decide, Ne.symm missValue_ne_zero⟩

/-- Claim C2 (amended): after the emission-height pass, at every cell whose
written combustion-flux value is exactly `0.0`: in the single-grid path all
four height variables hold the fill sentinel regardless of their prior
values; in the combining path only `mami` does, while `injh`, `apb` and
`apt` are left entirely unchanged. -/
theorem emission_heights_zero_flux (G : OutGrid) (t y x : Nat)
    (hc : G.cofire.val t y x = 0) :
    (process_emission_heights_single G).mami.val t y x = missValue ∧
    (process_emission_heights_single G).injh.val t y x = missValue ∧
    (process_emission_heights_single G).apb.val t y x = missValue ∧
    (process_emission_heights_single G).apt.val t y x = missValue ∧
    (process_emission_heights_combine G).mami.val t y x = missValue ∧
    (process_emission_heights_combine G).injh.val t y x = G.injh.val t y x ∧
    (process_emission_heights_combine G).apb.val t y x = G.apb.val t y x ∧
    (process_emission_heights_combine G).apt.val t y x = G.apt.val t y x := by
  refine ⟨?_, ?_, ?_, ?_, ?_, rfl, rfl, rfl⟩
  · show correctHeightCellSingle (G.mami.val t y x) (G.cofire.val t y x)
      = missValue
    rw [hc]
    exact correctHeightCellSingle_zero_flux _
  · show correctHeightCellSingle (G.injh.val t y x) (G.cofire.val t y x)
      = missValue
    rw [hc]
    exact correctHeightCellSingle_zero_flux _
  · show correctHeightCellSingle (G.apb.val t y x) (G.cofire.val t y x)
      = missValue
    rw [hc]
    exact correctHeightCellSingle_zero_flux _
  · show correctHeightCellSingle (G.apt.val t y x) (G.cofire.val t y x)
      = missValue
    rw [hc]
    exact correctHeightCellSingle_zero_flux _
  · show correctHeightCellCombine (G.mami.val t y x) (G.cofire.val t y x)
      = missValue
    rw [hc]
    exact correctHeightCellCombine_zero_flux _

/-- Witness for claim C2 at a concrete output grid with zero flux. -/
theorem emission_heights_zero_flux_witness :
    outGridZeroFlux.cofire.val 0 0 0 = 0 ∧
    (process_emission_heights_single outGridZeroFlux).injh.val 0 0 0
      = missValue :=
  ⟨rfl, (emission_heights_zero_flux outGridZeroFlux 0 0 0 rfl).2.1⟩

/-- Counterexample for claim C2 as stated: in the combining path a zero
combustion flux leaves `injh` at its prior value `7`, not at the sentinel. -/
theorem emission_heights_zero_flux_counterexample :
    outGridZeroFlux.cofire.val 0 0 0 = 0 ∧
    (process_emission_heights_combine outGridZeroFlux).injh.val 0 0 0 = 7 ∧
    (7 : ℚ) ≠ missValue :=
  ⟨rfl, rfl, Ne.symm (ne_of_lt (lt_trans missValue_neg (by norm_num)))⟩

/-- Claim C3 (amended): rule 2 of the emission-height pass.  Single-grid
path: at a cell with nonzero flux whose height is not the sentinel and has
magnitude strictly below 1, the height becomes `0.0`, and a cell failing
that condition is left unchanged; sentinel heights are never modified by
rule 2.  Combining path (applied to `mami` only): the implemented condition
is `cofire > -1.0` together with the one-sided bound `height < 1.0`, so the
claim's zeroing holds only under the extra hypothesis `-1 < cofire`, cells
failing the implemented condition are unchanged, and sentinel heights are
never modified. -/
theorem emission_height_rule_two (h c : ℚ) (hc : c ≠ 0) :
    (h ≠ missValue → -1 < h → h < 1 → correctHeightCellSingle h c = 0) ∧
    (¬(h ≠ missValue ∧ h < 1 ∧ -1 < h) → correctHeightCellSingle h c = h) ∧
    correctHeightCellSingle missValue c = missValue ∧
    (h ≠ missValue → -1 < c → h < 1 → correctHeightCellCombine h c = 0) ∧
    (¬(h ≠ missValue ∧ -1 < c ∧ h < 1) → correctHeightCellCombine h c = h) ∧
    correctHeightCellCombine missValue c = missValue := by
  refine ⟨?_, ?_, ?_, ?_, ?_, ?_⟩
  · intro hm hlo hhi
    rw [correctHeightCellSingle_of_ne h c hc, if_pos ⟨hm, hhi, hlo⟩]
  · intro hcond
    rw [correctHeightCellSingle_of_ne h c hc, if_neg hcond]
  · rw [correctHeightCellSingle_of_ne missValue c hc,
      if_neg fun hfull => hfull.1 rfl]
  · intro hm hlo hhi
    rw [correctHeightCellCombine_of_ne h c hc, if_pos ⟨hm, hlo, hhi⟩]
  · intro hcond
    rw [correctHeightCellCombine_of_ne h c hc, if_neg hcond]
  · rw [correctHeightCellCombine_of_ne missValue c hc,
      if_neg fun hfull => hfull.1 rfl]

/-- Witness for claim C3: the spec scenario flux `2.5`, height `0.4` yields
`0.0` in both paths. -/
theorem emission_height_rule_two_witness :
    ((5 / 2 : ℚ) ≠ 0) ∧ ((2 / 5 : ℚ) ≠ missValue) ∧
    (-1 < (2 / 5 : ℚ)) ∧ ((2 / 5 : ℚ) < 1) ∧ (-1 < (5 / 2 : ℚ)) ∧
    correctHeightCellSingle (2 / 5) (5 / 2) = 0 ∧
    correctHeightCellCombine (2 / 5) (5 / 2) = 0 :=
  ⟨by norm_num, twoFifths_ne_missValue, by norm_num, by norm_num, by norm_num,
   (emission_height_rule_two (2 / 5) (5 / 2) (by norm_num)).1
     twoFifths_ne_missValue (by norm_num) (by norm_num),
   (emission_height_rule_two (2 / 5) (5 / 2) (by norm_num)).2.2.2.1
     twoFifths_ne_missValue (by norm_num) (by norm_num)⟩

/-- Counterexample for claim C3 as stated: in the combining path, a cell
with nonzero flux `-2.5`, non-sentinel height `0.4` of magnitude below 1,
keeps its height `0.4` instead of being zeroed, because the implemented
test is `cofire > -1.0`, not `cofire != 0.0`. -/
theorem emission_height_rule_two_counterexample :
    outGridNegFlux.cofire.val 0 0 0 = -5 / 2 ∧
    outGridNegFlux.mami.val 0 0 0 = 2 / 5 ∧
    ((-5 / 2 : ℚ) ≠ 0) ∧ ((2 / 5 : ℚ) ≠ missValue) ∧
    (-1 < (2 / 5 : ℚ)) ∧ ((2 / 5 : ℚ) < 1) ∧
    (process_emission_heights_combine outGridNegFlux).mami.val 0 0 0
      = 2 / 5 ∧
    ((2 / 5 : ℚ) ≠ 0) := by
  refine ⟨rfl, rfl, by norm_num, twoFifths_ne_missValue, by norm_num,
    by norm_num, ?_, by norm_num⟩
  show correctHeightCellCombine (2 / 5) (-5 / 2) = 2 / 5
  rw [correctHeightCellCombine_of_ne (2 / 5) (-5 / 2) (by norm_num),
    if_neg fun hfull => absurd hfull.2.1 (by norm_num)]

/-- Claim C4: the emission-height pass of either path is idempotent —
re-running it on its own output (the pass never modifies the combustion
flux) changes no value. -/
theorem emission_heights_idempotent (G : OutGrid) :
    process_emission_heights_single (process_emission_heights_single G)
      = process_emission_heights_single G ∧
    process_emission_heights_combine (process_emission_heights_combine G)
      = process_emission_heights_combine G := by
  constructor
  · refine OutGrid.ext ?_ ?_ ?_ ?_ ?_
    · exact zipCells_idem _ correctHeightCellSingle_idem G.mami G.cofire
    · exact zipCells_idem _ correctHeightCellSingle_idem G.injh G.cofire
    · exact zipCells_idem _ correctHeightCellSingle_idem G.apb G.cofire
    · exact zipCells_idem _ correctHeightCellSingle_idem G.apt G.cofire
    · rfl
  · refine OutGrid.ext ?_ ?_ ?_ ?_ ?_
    · exact zipCells_idem _ correctHeightCellCombine_idem G.mami G.cofire
    · rfl
    · rfl
    · rfl
    · rfl

/-- Claim C5: for a raw grid with the standard extents, the output latitude
array has length 1800 and is the exact element-by-element reverse of the
raw latitude array, and the output longitude array has length 3600 and is
identical to the raw longitude array. -/
theorem coordinate_axes_spec (lat lon : List ℚ)
    (hlat : lat.length = 1800) (hlon : lon.length = 3600) :
    (process_lat lat).length = 1800 ∧
    (∀ i, i < 1800 → (process_lat lat).getD i 0 = lat.getD (1799 - i) 0) ∧
    (process_lon lon).length = 3600 ∧
    process_lon lon = lon := by
  refine ⟨by simpa [process_lat] using hlat, ?_,
    by simpa [process_lon] using hlon, rfl⟩
  intro i hi
  have h1 : i < lat.reverse.length := by
    rw [List.length_reverse, hlat]
    exact hi
  have h2 : 1799 - i < lat.length := by omega
  rw [process_lat, List.getD_eq_getElem _ 0 h1, List.getD_eq_getElem _ 0 h2,
    List.getElem_reverse]
  congr 1
  omega

/-- Witness for claim C5 at concrete coordinate arrays. -/
theorem coordinate_axes_spec_witness :
    (List.replicate 1800 (0 : ℚ)).length = 1800 ∧
    (process_lat (List.replicate 1800 (0 : ℚ))).length = 1800 :=
  ⟨List.length_replicate 1800 0,
   (coordinate_axes_spec (List.replicate 1800 0) (List.replicate 3600 0)
     (List.length_replicate 1800 0) (List.length_replicate 3600 0)).1⟩

/-- Claim C6: every output time value of the combining script equals the
corresponding raw value minus the fixed 613608-hour offset (for raw values
whose corrected value fits in `np.int32`); the combined time axis is the
offset-corrected first-half sequence followed by the offset-corrected
second-half sequence, of total length `N1 + N2`, without re-sorting; and
each combined data variable holds half-one's processed array at time
indices below `N1` and half-two's processed array at indices `N1 + t`. -/
theorem combine_time_and_data (t1 t2 : List ℤ) (code : String) (r1 r2 : Grid3)
    (hr1 : ∀ v ∈ t1, -(2 ^ 31) ≤ v - timeOffset ∧ v - timeOffset < 2 ^ 31)
    (hr2 : ∀ v ∈ t2, -(2 ^ 31) ≤ v - timeOffset ∧ v - timeOffset < 2 ^ 31) :
    (process_time_combine t1 t2).length = t1.length + t2.length ∧
    (∀ i, i < t1.length →
      (process_time_combine t1 t2).getD i 0 = t1.getD i 0 - timeOffset) ∧
    (∀ i, i < t2.length →
      (process_time_combine t1 t2).getD (t1.length + i) 0
        = t2.getD i 0 - timeOffset) ∧
    (process_variable_combine code r1 r2).T = r1.T + r2.T ∧
    (∀ t y x, t < r1.T →
      (process_variable_combine code r1 r2).val t y x
        = (process_half_combine code r1).val t y x) ∧
    (∀ t y x, (process_variable_combine code r1 r2).val (r1.T + t) y x
        = (process_half_combine code r2).val t y x) := by
  have hvaleq : ∀ t y x, (process_variable_combine code r1 r2).val t y x
      = if t < r1.T then (process_half_combine code r1).val t y x
        else (process_half_combine code r2).val (t - r1.T) y x :=
    fun _ _ _ => rfl
  have hsingle : ∀ (t : List ℤ),
      (∀ v ∈ t, -(2 ^ 31) ≤ v - timeOffset ∧ v - timeOffset < 2 ^ 31) →
      ∀ (i : Nat), i < t.length →
        (process_time_single t).getD i 0 = t.getD i 0 - timeOffset := by
    intro t hr i hi
    rw [List.getD_eq_getElem?_getD, List.getD_eq_getElem?_getD,
      process_time_single, List.getElem?_map, List.getElem?_eq_getElem hi]
    exact toInt32_eq_self (hr _ (List.getElem_mem hi)).1
      (hr _ (List.getElem_mem hi)).2
  refine ⟨by simp [process_time_combine, process_time_single], ?_, ?_, rfl,
    ?_, ?_⟩
  · intro i hi
    have h1 : i < (process_time_single t1).length := by
      simpa [process_time_single] using hi
    rw [List.getD_eq_getElem?_getD, process_time_combine,
      List.getElem?_append_left h1, ← List.getD_eq_getElem?_getD]
    exact hsingle t1 hr1 i hi
  · intro i hi
    have hge : (process_time_single t1).length ≤ t1.length + i := by
      rw [show (process_time_single t1).length = t1.length by
        simp [process_time_single]]
      exact Nat.le_add_right _ _
    have hidx : t1.length + i - (process_time_single t1).length = i := by
      simp [process_time_single]
    rw [List.getD_eq_getElem?_getD, process_time_combine,
      List.getElem?_append_right hge, hidx, ← List.getD_eq_getElem?_getD]
    exact hsingle t2 hr2 i hi
  · intro t y x ht
    rw [hvaleq, if_pos ht]
  · intro t y x
    rw [hvaleq, if_neg (by omega), Nat.add_sub_cancel_left]

/-- Witness for claim C6 at concrete half-month time axes and grids. -/
theorem combine_time_and_data_witness :
    (process_time_combine [613608] [613609, 613610]).length = 3 :=
  (combine_time_and_data [613608] [613609, 613610] "cofire" gridFive gridFive
    (by decide) (by decide)).1

/-- Claim C7 (amended): for a specified variable code absent from the raw
input: the single-grid path emits exactly one message (the warning), the
combining path emits two (its progress line, written before the presence
check, then the warning); in both paths no output variable is created and
the remaining specified variables are processed exactly as if the absent
record were not in the specification. -/
theorem absent_variable_skipped (vars1 vars2 : List (String × Grid3))
    (m : VarMeta) (s1 s2 : List VarMeta)
    (habs : vars1.lookup m.code = none) :
    process_variable_run_single vars1 m = (none, [warnAbsentSingle m.code]) ∧
    (process_all_single vars1 (s1 ++ m :: s2)).1
      = (process_all_single vars1 (s1 ++ s2)).1 ∧
    (process_all_single vars1 (s1 ++ m :: s2)).2
      = (process_all_single vars1 s1).2 ++ warnAbsentSingle m.code
          :: (process_all_single vars1 s2).2 ∧
    process_variable_run_combine vars1 vars2 m
      = .ok (none, [infoProcessingCombine m.code, warnAbsentCombine m.code]) := by
  refine ⟨?_, ?_, ?_, ?_⟩
  · simp [process_variable_run_single, habs]
  · rw [process_all_single_append, process_all_single_append]
    simp [process_all_single, process_variable_run_single, habs]
  · rw [process_all_single_append]
    simp [process_all_single, process_variable_run_single, habs]
  · simp [process_variable_run_combine, habs]

/-- Witness for claim C7 at an empty raw dataset. -/
theorem absent_variable_skipped_witness :
    ([] : List (String × Grid3)).lookup metaFire.code = none ∧
    process_variable_run_single [] metaFire
      = (none, [warnAbsentSingle metaFire.code]) :=
  ⟨rfl, (absent_variable_skipped [] [] metaFire [] [] rfl).1⟩

/-- Counterexample for claim C7 as stated: the combining path emits two
messages for an absent variable code, not exactly one. -/
theorem absent_variable_skipped_counterexample :
    process_variable_run_combine [] [] metaFire
      = Except.ok (none,
          [infoProcessingCombine "frpfire", warnAbsentCombine "frpfire"]) ∧
    [infoProcessingCombine "frpfire", warnAbsentCombine "frpfire"].length
      ≠ 1 :=
  ⟨rfl, by decide⟩

/-- Claim C8 (amended): every configuration error of the single-grid script
is detected before processing starts, reported, and ends the process with a
non-zero exit status; however the output-path writability probe
(`potential_file_path`, which opens the path with mode "w+") creates an
empty file at the output path, and that file remains whenever a
configuration error is detected after argument validation — i.e. exactly
when the raw path exists and the output location is writable. -/
theorem config_error_handling (cfg : RunConfig)
    (herr : cfg.rawIsFile = false ∨ cfg.outWritable = false ∨
      cfg.specIsFile = false ∨ cfg.specOpenOk = false ∨
      cfg.rawOpenOk = false) :
    (mainSingleRun cfg).exitCode ≠ 0 ∧
    (mainSingleRun cfg).reported = true ∧
    (mainSingleRun cfg).completed = false ∧
    (mainSingleRun cfg).outFileCreated = (cfg.rawIsFile && cfg.outWritable) := by
  obtain ⟨a, b, c, d, e⟩ := cfg
  revert herr
  cases a <;> cases b <;> cases c <;> cases d <;> cases e <;> decide

/-- Witness for claim C8: an unreadable variable spec is a configuration
error and yields a non-zero exit. -/
theorem config_error_handling_witness :
    cfgSpecUnreadable.specOpenOk = false ∧
    (mainSingleRun cfgSpecUnreadable).exitCode ≠ 0 :=
  ⟨rfl, (config_error_handling cfgSpecUnreadable (by decide)).1⟩

/-- Counterexample for claim C8 as stated: with an unreadable variable spec
the run exits non-zero, but a file has been created at the output path by
the argument-validation probe, so an (empty) output file is produced. -/
theorem config_error_output_creation_counterexample :
    (mainSingleRun cfgSpecUnreadable).exitCode = 1 ∧
    (mainSingleRun cfgSpecUnreadable).outFileCreated = true := by
  constructor
  · decide
  · decide

/-- Witness for claim C9: on the list `[3, 1, 1, 2, 2]` the values `1` and
`2` tie at count two and `simple_mode` is in the list (it returns `1`, the
smallest tied value). -/
theorem simple_mode_is_mode_witness :
    ([(3 : ℚ), 1, 1, 2, 2] ≠ []) ∧
    simple_mode [(3 : ℚ), 1, 1, 2, 2] ∈ [(3 : ℚ), 1, 1, 2, 2] :=
  ⟨by decide, (simple_mode_is_mode [(3 : ℚ), 1, 1, 2, 2] (by decide)).1⟩

/-- Claim C10: the single-grid script derives the output title's date by
reading the raw time coordinate at fixed index 5, before writing any
dimension or data variable; a raw input with fewer than 6 time steps fails
there with an out-of-bounds access and produces no data variables, and one
with at least 6 time steps passes this step. -/
theorem title_requires_six_timesteps (raw : RawInput) (spec : List VarMeta) :
    (raw.times.length < 6 →
      mainSingleProcess raw spec
        = .error "IndexError: time index 5 out of bounds") ∧
    (6 ≤ raw.times.length →
      ∃ out, mainSingleProcess raw spec = .ok out) := by
  constructor
  · intro hlt
    have hnone : raw.times[5]? = none := List.getElem?_eq_none (by omega)
    simp [mainSingleProcess, hnone]
  · intro hge
    have h5 : 5 < raw.times.length := by omega
    have hsome : raw.times[5]? = some raw.times[5] :=
      List.getElem?_eq_getElem h5
    simp only [mainSingleProcess, hsome]
    exact ⟨_, rfl⟩

/-- Witness for claim C10: a raw input with three time steps fails at the
title-derivation step. -/
theorem title_requires_six_timesteps_witness :
    rawShort.times.length < 6 ∧
    mainSingleProcess rawShort []
      = .error "IndexError: time index 5 out of bounds" :=
  ⟨by decide, (title_requires_six_timesteps rawShort []).1 (by decide)⟩

end GFAS
